import Mathlib

/-!
Verification of the myAgent conversational engine: a shallow embedding of
the LangGraph chat workflow (graph.ts / agent.ts / memoryStore.ts) together
with proofs about its state machine, tool-execution node, memory
extraction, deduplication, and the PostgreSQL-backed fact store.
-/

set_option linter.unusedVariables false

/- ===================== JS string primitives ===================== -/

/-- JavaScript `Array.prototype.join(sep)`. -/
def jsJoin (sep : String) : List String → String
  | [] => ""
  | [x] => x
  | x :: xs => x ++ sep ++ jsJoin sep xs

/-- JavaScript `String.prototype.toLowerCase()` (ASCII range, as used here). -/
def lowerStr (s : String) : String := String.mk (s.data.map Char.toLower)

/-- JavaScript `s.slice(0, n)`: the first `n` characters of `s`. -/
def jsSlice (n : Nat) (s : String) : String := String.mk (s.data.take n)

/-- Helper for `String.prototype.includes`: is `pat` a contiguous infix of `l`? -/
def infixOfAux (pat : List Char) : List Char → Bool
  | [] => pat.isEmpty
  | c :: rest => pat.isPrefixOf (c :: rest) || infixOfAux pat rest

/-- JavaScript `s.includes(pat)`. -/
def containsSubstr (s pat : String) : Bool := infixOfAux pat.data s.data

/- ===================== Message data model ===================== -/

/-- Message roles, per `@langchain/core/messages`. -/
inductive Role where
  | system
  | user
  | assistant
  | tool
deriving DecidableEq, Repr

/-- A tool call emitted by the model (`tool_calls` entry): id, tool name,
and the structured arguments (kept as an opaque serialized payload). -/
structure ToolCall where
  id : String
  name : String
  args : String
deriving DecidableEq, Repr

/-- A chat message: role, text content, the `tool_calls` list (empty unless
the role is assistant), and `tool_call_id` (present only on tool messages). -/
structure Message where
  role : Role
  content : String
  toolCalls : List ToolCall := []
  toolCallId : Option String := none
deriving DecidableEq, Repr

/- ===================== Memory deduplication (agent.ts) ===================== -/

/-- agent.ts dedup check: `userMemories.some((m) =>
m.toLowerCase().includes(fact.toLowerCase().slice(0, 20)) ||
fact.toLowerCase().includes(m.toLowerCase().slice(0, 20)))`. -/
def isDuplicate (userMemories : List String) (fact : String) : Bool :=
  userMemories.any (fun m =>
    containsSubstr (lowerStr m) (jsSlice 20 (lowerStr fact)) ||
    containsSubstr (lowerStr fact) (jsSlice 20 (lowerStr m)))

/-- The facts the save loop persists: `for (const fact of newFacts) { if
(!isDuplicate) put }` — `userMemories` is not extended inside the loop. -/
def saveFacts (userMemories newFacts : List String) : List String :=
  newFacts.filter (fun fact => !(isDuplicate userMemories fact))

/- ===================== System-prompt construction (agent.ts) ===================== -/

/-- agent.ts (plain variant, lines 76-80): the system prompt text built from
the user's stored memories. -/
def systemContentV1 (userMemories : List String) : String :=
  "You are a helpful AI assistant." ++
    (if userMemories.length > 0 then
      "\n\nThings you remember about this user from previous conversations:\n" ++
        jsJoin "\n" (userMemories.map (fun m => "- " ++ m)) ++
        "\n\nUse this information naturally in your responses when relevant."
    else "")

/-- agent.ts (plain variant, lines 82-87): the message list passed to
`llm.invoke` — the memory-bearing system message prepended to the state. -/
def promptMessagesV1 (userMemories : List String) (stateMessages : List Message) :
    List Message :=
  { role := Role.system, content := systemContentV1 userMemories } :: stateMessages

/-- agent.ts (tool-enabled variant, lines 203-206): the system prompt text
built from the user's stored memories (computed but never passed onward). -/
def systemContentV2 (userMemories : List String) : String :=
  "You are a helpful AI assistant with memory. You remember things users tell you about themselves across conversations." ++
    (if userMemories.length > 0 then
      "\n\nIMPORTANT - Things you remember about this user from previous conversations:\n" ++
        jsJoin "\n" (userMemories.map (fun m => "- " ++ m)) ++
        "\n\nUse this information naturally in your responses. If the user asks who they are or something you know, tell them!"
    else "")

/-- agent.ts (tool-enabled variant, lines 217-219): the fixed system message
used when the state has none. -/
def fixedSystemV2 : String :=
  "You are a helpful assistant. If you receive tool results, you MUST use them to answer the user."

/-- agent.ts (tool-enabled variant, lines 210-221): `baseMessages`, the
message list actually passed to `llmWithTools.invoke`. -/
def baseMessagesV2 (stateMessages : List Message) : List Message :=
  if stateMessages.any (fun m => m.role == Role.system) then stateMessages
  else { role := Role.system, content := fixedSystemV2 } :: stateMessages

/- ===================== JSON values (JS JSON.parse / JSON.stringify) ===================== -/

/-- A parsed JSON value. Numbers keep their source lexeme: the code never
computes with them, it only checks `typeof f === "string"`. -/
inductive Json where
  | null : Json
  | bool : Bool → Json
  | num : String → Json
  | str : String → Json
  | arr : List Json → Json
  | obj : List (String × Json) → Json

instance : Inhabited Json := ⟨Json.null⟩

/-- JSON whitespace skipping used by `JSON.parse`. -/
def skipWs : List Char → List Char
  | [] => []
  | c :: cs => if c = ' ' || c = '\t' || c = '\n' || c = '\r' then skipWs cs else c :: cs

/-- Value of one hex digit, if any. -/
def hexVal (c : Char) : Option Nat :=
  if c.isDigit then some (c.toNat - 48)
  else if 'a' ≤ c && c ≤ 'f' then some (c.toNat - 87)
  else if 'A' ≤ c && c ≤ 'F' then some (c.toNat - 55)
  else none

/-- Single-character JSON string escapes. -/
def unescape (e : Char) : Option Char :=
  if e = '"' then some '"'
  else if e = '\\' then some '\\'
  else if e = '/' then some '/'
  else if e = 'n' then some '\n'
  else if e = 't' then some '\t'
  else if e = 'r' then some '\r'
  else if e = 'b' then some (Char.ofNat 8)
  else if e = 'f' then some (Char.ofNat 12)
  else none

/-- Body of a JSON string after the opening quote: returns the decoded
string and the input remaining after the closing quote. Raw control
characters are rejected, as `JSON.parse` does. -/
def parseStringBody : List Char → Option (String × List Char)
  | [] => none
  | '"' :: rs => some ("", rs)
  | '\\' :: 'u' :: h1 :: h2 :: h3 :: h4 :: rs =>
    (match hexVal h1, hexVal h2, hexVal h3, hexVal h4 with
     | some a, some b, some c, some d =>
       (match parseStringBody rs with
        | some (s, rs2) =>
          some (String.mk (Char.ofNat (((a * 16 + b) * 16 + c) * 16 + d) :: s.data), rs2)
        | none => none)
     | _, _, _, _ => none)
  | '\\' :: e :: rs =>
    (match unescape e with
     | some ch =>
       (match parseStringBody rs with
        | some (s, rs2) => some (String.mk (ch :: s.data), rs2)
        | none => none)
     | none => none)
  | c :: rs =>
    if c.toNat < 32 then none
    else
      match parseStringBody rs with
      | some (s, rs2) => some (String.mk (c :: s.data), rs2)
      | none => none

/-- Fraction and exponent part of a JSON number, given the lexeme so far. -/
def parseNumberRest (lex : List Char) (cs : List Char) : Option (List Char × List Char) :=
  let step1 : Option (List Char × List Char) :=
    match cs with
    | '.' :: r =>
      let ds := r.takeWhile Char.isDigit
      if ds.isEmpty then none else some (lex ++ '.' :: ds, r.dropWhile Char.isDigit)
    | _ => some (lex, cs)
  match step1 with
  | none => none
  | some (lex2, cs2) =>
    match cs2 with
    | 'e' :: r =>
      let (sgn, r2) := match r with
        | '+' :: rr => (['+'], rr)
        | '-' :: rr => (['-'], rr)
        | _ => (([] : List Char), r)
      let ds := r2.takeWhile Char.isDigit
      if ds.isEmpty then none else some (lex2 ++ 'e' :: sgn ++ ds, r2.dropWhile Char.isDigit)
    | 'E' :: r =>
      let (sgn, r2) := match r with
        | '+' :: rr => (['+'], rr)
        | '-' :: rr => (['-'], rr)
        | _ => (([] : List Char), r)
      let ds := r2.takeWhile Char.isDigit
      if ds.isEmpty then none else some (lex2 ++ 'E' :: sgn ++ ds, r2.dropWhile Char.isDigit)
    | _ => some (lex2, cs2)

/-- A JSON number lexeme: `-?(0|[1-9][0-9]*)(\.[0-9]+)?([eE][+-]?[0-9]+)?`. -/
def parseNumber (cs : List Char) : Option (List Char × List Char) :=
  let (sgn, cs1) := match cs with
    | '-' :: r => ((['-'] : List Char), r)
    | _ => (([] : List Char), cs)
  match cs1 with
  | [] => none
  | c :: r =>
    if c = '0' then
      match r with
      | d :: _ => if d.isDigit then none else parseNumberRest (sgn ++ ['0']) r
      | [] => parseNumberRest (sgn ++ ['0']) []
    else if c.isDigit then
      parseNumberRest (sgn ++ c :: r.takeWhile Char.isDigit) (r.dropWhile Char.isDigit)
    else none

/-- Recursive-descent JSON value parser, fuel-bounded. The tail of an array
or object after a comma is parsed by re-entering the bracket case, so a
lone closing bracket after a comma (a trailing comma) is rejected exactly
as `JSON.parse` rejects it. -/
def parseVal : Nat → List Char → Option (Json × List Char)
  | 0, _ => none
  | fuel + 1, cs =>
    match skipWs cs with
    | [] => none
    | c :: rest =>
      if c = 'n' then
        match rest with
        | 'u' :: 'l' :: 'l' :: rs => some (Json.null, rs)
        | _ => none
      else if c = 't' then
        match rest with
        | 'r' :: 'u' :: 'e' :: rs => some (Json.bool true, rs)
        | _ => none
      else if c = 'f' then
        match rest with
        | 'a' :: 'l' :: 's' :: 'e' :: rs => some (Json.bool false, rs)
        | _ => none
      else if c = '"' then
        match parseStringBody rest with
        | some (s, rs) => some (Json.str s, rs)
        | none => none
      else if c = '[' then
        match skipWs rest with
        | ']' :: rs => some (Json.arr [], rs)
        | _ =>
          match parseVal fuel rest with
          | some (v, rs) =>
            (match skipWs rs with
             | ',' :: rs2 =>
               (match parseVal fuel ('[' :: rs2) with
                | some (Json.arr (e :: es), rs3) => some (Json.arr (v :: e :: es), rs3)
                | _ => none)
             | ']' :: rs2 => some (Json.arr [v], rs2)
             | _ => none)
          | none => none
      else if c = '{' then
        match skipWs rest with
        | '}' :: rs => some (Json.obj [], rs)
        | '"' :: rs =>
          (match parseStringBody rs with
           | some (k, rs1) =>
             (match skipWs rs1 with
              | ':' :: rs2 =>
                (match parseVal fuel rs2 with
                 | some (v, rs3) =>
                   (match skipWs rs3 with
                    | ',' :: rs4 =>
                      (match parseVal fuel ('{' :: rs4) with
                       | some (Json.obj (m :: ms), rs5) => some (Json.obj ((k, v) :: m :: ms), rs5)
                       | _ => none)
                    | '}' :: rs4 => some (Json.obj [(k, v)], rs4)
                    | _ => none)
                 | none => none)
              | _ => none)
           | none => none)
        | _ => none
      else if c = '-' || c.isDigit then
        match parseNumber (c :: rest) with
        | some (lex, rs) => some (Json.num (String.mk lex), rs)
        | none => none
      else none

/-- `JSON.parse`: parse a complete value; trailing non-whitespace input is
an error. `none` models the thrown `SyntaxError`. -/
def Json.parse (s : String) : Option Json :=
  match parseVal (2 * s.data.length + 2) s.data with
  | some (j, rest) => if (skipWs rest).isEmpty then some j else none
  | none => none

/-- Hex digit character for string escaping. -/
def hexDigitCh (n : Nat) : Char :=
  if n < 10 then Char.ofNat (48 + n) else Char.ofNat (87 + n)

/-- `JSON.stringify` escaping of string contents. -/
def escapeChars : List Char → List Char
  | [] => []
  | c :: cs =>
    (if c = '"' then ['\\', '"']
     else if c = '\\' then ['\\', '\\']
     else if c = '\n' then ['\\', 'n']
     else if c = '\t' then ['\\', 't']
     else if c = '\r' then ['\\', 'r']
     else if c.toNat = 8 then ['\\', 'b']
     else if c.toNat = 12 then ['\\', 'f']
     else if c.toNat < 32 then
       ['\\', 'u', '0', '0', hexDigitCh (c.toNat / 16), hexDigitCh (c.toNat % 16)]
     else [c]) ++ escapeChars cs

/-- A JSON string literal for `s`. -/
def quoteStr (s : String) : String := "\"" ++ String.mk (escapeChars s.data) ++ "\""

mutual

/-- `JSON.stringify` (no indentation), as used for tool results. -/
def Json.stringify : Json → String
  | Json.null => "null"
  | Json.bool true => "true"
  | Json.bool false => "false"
  | Json.num lex => lex
  | Json.str s => quoteStr s
  | Json.arr es => "[" ++ stringifyElems es ++ "]"
  | Json.obj ms => "\x7b" ++ stringifyMembers ms ++ "\x7d"

/-- Comma-separated serialization of array elements. -/
def stringifyElems : List Json → String
  | [] => ""
  | [e] => Json.stringify e
  | e :: es => Json.stringify e ++ "," ++ stringifyElems es

/-- Comma-separated serialization of object members. -/
def stringifyMembers : List (String × Json) → String
  | [] => ""
  | [(k, v)] => quoteStr k ++ ":" ++ Json.stringify v
  | (k, v) :: ms => quoteStr k ++ ":" ++ Json.stringify v ++ "," ++ stringifyMembers ms

end

/- ===================== Fact extraction (agent.ts extractUserFacts) ===================== -/

/-- The regex match `content.match(/\[[\s\S]*\]/)`: greedy, so it spans
from the first `[` in the text to the last `]`, provided the latter comes
after the former; `none` models a failed match. -/
def firstIdxOf (ch : Char) : List Char → Option Nat
  | [] => none
  | c :: cs => if c = ch then some 0 else (firstIdxOf ch cs).map (· + 1)

/-- `content.match(/\[[\s\S]*\]/)` yielding `match[0]`. -/
def matchArray (s : String) : Option String :=
  let cs := s.data
  match firstIdxOf '[' cs, firstIdxOf ']' cs.reverse with
  | some i, some jr =>
    let j := cs.length - 1 - jr
    if i < j then some (String.mk ((cs.drop i).take (j - i + 1))) else none
  | _, _ => none

/-- The string payload of a JSON value, when it is a string
(`typeof f === "string"`). -/
def Json.asString : Json → Option String
  | Json.str s => some s
  | _ => none

/-- The parse stage of `extractUserFacts` applied to the model's raw text:
take the first bracketed substring, `JSON.parse` it inside the try/catch,
and keep the string elements (`Array.isArray(facts) ? facts.filter((f) =>
typeof f === "string") : []`); every failure path yields `[]`. -/
def extractFactsFromContent (content : String) : List String :=
  match matchArray content with
  | none => []
  | some sub =>
    match Json.parse sub with
    | none => []
    | some (Json.arr elems) => elems.filterMap Json.asString
    | some _ => []

/-- JavaScript `String.prototype.trim()` (ASCII whitespace). -/
def jsTrim (s : String) : String :=
  let wsp : Char → Bool := fun c => c = ' ' || c = '\t' || c = '\n' || c = '\r'
  String.mk (((s.data.dropWhile wsp).reverse.dropWhile wsp).reverse)

/-- agent.ts lines 17-20: render the trailing 6 messages as a
`User:`/`Assistant:` transcript (`_getType() === "human"` picks `User`). -/
def renderConversation (messages : List Message) : String :=
  jsJoin "\n" ((messages.drop (messages.length - 6)).map
    (fun m => (if m.role == Role.user then "User" else "Assistant") ++ ": " ++ m.content))

/-- `extractUserFacts`, with the model's reply text passed as a parameter:
an empty transcript short-circuits to `[]` before the model is invoked,
otherwise the reply is parsed best-effort. -/
def extractUserFacts (messages : List Message) (modelOutput : String) : List String :=
  if (jsTrim (renderConversation messages)).data.isEmpty then []
  else extractFactsFromContent modelOutput

/- ===================== Tool registry and toolNode (agent.ts) ===================== -/

/-- A registered tool: a name and an invocable capability. `Except.error`
models the tool throwing during invocation. -/
structure Tool where
  name : String
  invoke : String → Except String Json

/-- agent.ts lines 261-285, `toolNode`. The returned update is the list of
messages merged into the state; `Except.error` models a thrown error
propagating out of the node. Only `tool_calls[0]` is examined; an
unresolved name throws `Tool not found`; an exception from `tool.invoke`
is not caught. An empty state throws (reading `tool_calls` of
`undefined`). -/
def toolNode (tools : List Tool) (messages : List Message) : Except String (List Message) :=
  match messages.getLast? with
  | none => Except.error "TypeError: Cannot read properties of undefined"
  | some lastMessage =>
    match lastMessage.toolCalls with
    | [] => Except.ok []
    | toolCall :: _ =>
      match tools.find? (fun t => t.name == toolCall.name) with
      | none => Except.error ("❌ Tool not found: " ++ toolCall.name)
      | some tool =>
        match tool.invoke toolCall.args with
        | Except.error e => Except.error e
        | Except.ok result =>
          Except.ok [{ role := Role.tool, content := Json.stringify result,
                       toolCallId := some toolCall.id }]

/- ===================== Conversation state machine (graph.ts) ===================== -/

/-- The messages reducer of `ChatState`:
`(current, update) => current.concat(update)`. -/
def reducer (current update : List Message) : List Message := current ++ update

/-- State accumulated by folding every update through the reducer. -/
def stateAfter (updates : List (List Message)) : List Message :=
  updates.foldl reducer []

/-- The nodes of the compiled workflow, plus the implicit START and END. -/
inductive GNode where
  | start
  | agent
  | finish
deriving DecidableEq, Repr

/-- The edges of `workflow`: `addEdge(START, "agent")` and
`addEdge("agent", END)` — both unconditional; no other node is added. -/
def nextNode : GNode → GNode
  | GNode.start => GNode.agent
  | GNode.agent => GNode.finish
  | GNode.finish => GNode.finish

/-- The `agent` node (tool-enabled `chatAgent`) as seen by the graph: both
branches invoke the model once on `baseMessages` and return
`{ messages: [response] }`. The model stub takes the number of prior
invocations, so a test double can answer differently per call. -/
def chatAgentUpdate (model : Nat → List Message → Message) (invocations : Nat)
    (messages : List Message) : List Message :=
  [model invocations (baseMessagesV2 messages)]

/-- One scheduler step of the compiled graph: run the node, merge its
update through the reducer, follow the unconditional edge. -/
def graphStep (model : Nat → List Message → Message) :
    GNode × Nat × List Message → GNode × Nat × List Message
  | (GNode.start, k, msgs) => (GNode.agent, k, msgs)
  | (GNode.agent, k, msgs) =>
    (GNode.finish, k + 1, reducer msgs (chatAgentUpdate model k msgs))
  | (GNode.finish, k, msgs) => (GNode.finish, k, msgs)

/-- Run the graph scheduler for at most `fuel` steps or until END. -/
def graphRun (model : Nat → List Message → Message) :
    Nat → GNode × Nat × List Message → Nat × List Message
  | 0, (_, k, msgs) => (k, msgs)
  | fuel + 1, (node, k, msgs) =>
    match node with
    | GNode.finish => (k, msgs)
    | _ => graphRun model fuel (graphStep model (node, k, msgs))

/-- `chatGraph.invoke(input, config)`: the input messages are merged into
the loaded thread state through the reducer, then the graph runs from
START to END. Returns the model-invocation count and the persisted
message sequence. -/
def invokeGraph (model : Nat → List Message → Message) (prior input : List Message) :
    Nat × List Message :=
  graphRun model 3 (GNode.start, 0, reducer prior input)

/- ===================== Fact store (graph.ts / memoryStore.ts) ===================== -/

/-- One row of the `user_memories` table: `id TEXT PRIMARY KEY`,
`namespace TEXT`, `fact TEXT`, `created_at TIMESTAMPTZ DEFAULT NOW()`
(modeled as a logical clock). -/
structure Row where
  id : String
  ns : String
  fact : String
  createdAt : Nat
deriving DecidableEq, Repr

/-- The value the agent passes to `memoryStore.put`:
`{ fact, createdAt: new Date().toISOString() }`. -/
structure FactValue where
  fact : String
  createdAt : String
deriving DecidableEq, Repr

/-- `namespace.join(":")`. -/
def joinNs (nspace : List String) : String := jsJoin ":" nspace

/-- `ORDER BY created_at DESC`: insertion sort, newest first. -/
def insertDesc (r : Row) : List Row → List Row
  | [] => [r]
  | x :: xs => if r.createdAt ≥ x.createdAt then r :: x :: xs else x :: insertDesc r xs

/-- Sort rows newest-first by `created_at`. -/
def sortByCreatedDesc : List Row → List Row
  | [] => []
  | x :: xs => insertDesc x (sortByCreatedDesc xs)

/-- `memoryStore.search(namespace)`: `SELECT id, fact FROM user_memories
WHERE namespace = $1 ORDER BY created_at DESC LIMIT 50`, projected to
`{ key: id, value: { fact } }` pairs. -/
def memoryStoreSearch (store : List Row) (nspace : List String) :
    List (String × String) :=
  ((sortByCreatedDesc (store.filter (fun r => r.ns == joinNs nspace))).take 50).map
    (fun r => (r.id, r.fact))

/-- `memoryStore.put(namespace, key, value)`: `INSERT INTO user_memories
(id, namespace, fact) VALUES ($1, $2, $3) ON CONFLICT (id) DO UPDATE SET
fact = $3`. Only `id`, `namespace`, `fact` are supplied: `created_at`
defaults to the database clock `now`, and on conflict only `fact` is
rewritten. `value.createdAt` is never read. -/
def memoryStorePut (store : List Row) (nspace : List String) (key : String)
    (value : FactValue) (now : Nat) : List Row :=
  if store.any (fun r => r.id == key) then
    store.map (fun r => if r.id == key then { r with fact := value.fact } else r)
  else
    store ++ [{ id := key, ns := joinNs nspace, fact := value.fact, createdAt := now }]

/-- `memoryStore.delete(namespace, key)`:
`DELETE FROM user_memories WHERE id = $1` — the namespace argument is not
used in the query. -/
def memoryStoreDelete (store : List Row) (nspace : List String) (key : String) :
    List Row :=
  store.filter (fun r => !(r.id == key))

/- ===================== concrete test doubles ===================== -/

/-- Is an `Except` result a success? -/
def exceptIsOk {ε α : Type} : Except ε α → Bool
  | Except.ok _ => true
  | Except.error _ => false

/-- A registered tool that echoes its argument. -/
def echoTool : Tool := ⟨"echo", fun args => Except.ok (Json.str args)⟩

/-- A registered tool that always raises. -/
def failTool : Tool := ⟨"boom", fun _ => Except.error "boom failed"⟩

/-- A plain user message. -/
def u0 : Message := { role := Role.user, content := "hi" }

/-- An assistant message whose single tool call names no registered tool. -/
def asstMissing : Message :=
  { role := Role.assistant, content := "", toolCalls := [⟨"c1", "get_time", "now"⟩] }

/-- An assistant message whose single tool call targets the raising tool. -/
def asstBoom : Message :=
  { role := Role.assistant, content := "", toolCalls := [⟨"c2", "boom", "x"⟩] }

/-- An assistant message carrying two tool calls to the echo tool. -/
def asstTwoCalls : Message :=
  { role := Role.assistant, content := "",
    toolCalls := [⟨"c1", "echo", "one"⟩, ⟨"c2", "echo", "two"⟩] }

/-- The tool call emitted by the model stub on its first invocation. -/
def stubToolCall : ToolCall := ⟨"call_1", "get_weather", "Paris"⟩

/-- The assistant message carrying the stub tool call. -/
def stubAsstToolCall : Message :=
  { role := Role.assistant, content := "", toolCalls := [stubToolCall] }

/-- The tool-free final answer of the model stub. -/
def stubFinalAnswer : Message :=
  { role := Role.assistant, content := "It is always sunny in Paris" }

/-- A model stub: one ToolCall on invocation 1, a tool-free answer on
invocation 2 and later. -/
def stubModel : Nat → List Message → Message
  | 0, _ => stubAsstToolCall
  | _ + 1, _ => stubFinalAnswer

/-- The inbound user message of the stubbed turn. -/
def stubUser : Message := { role := Role.user, content := "What is the weather in Paris?" }

/-- A user message for the memory-injection scenario. -/
def wUser : Message := { role := Role.user, content := "What do I like?" }

/-- A one-row fact store: a fact of user A, id `m1`, written at time 5. -/
def wStore : List Row := [{ id := "m1", ns := "A:memories", fact := "old fact", createdAt := 5 }]

/-- A one-row fact store: a fact of user B, id `m2`, written at time 1. -/
def wStoreB : List Row := [{ id := "m2", ns := "B:memories", fact := "likes tea", createdAt := 1 }]

/- ===================== helper lemmas ===================== -/

/-- `take n` of a list is a boolean prefix of it. -/
lemma take_isPrefixOf (l : List Char) (n : Nat) : (l.take n).isPrefixOf l = true := by
  induction l generalizing n with
  | nil => cases n <;> rfl
  | cons c cs ih =>
    cases n with
    | zero => rfl
    | succ m => simp [List.take, List.isPrefixOf, ih]

/-- A boolean prefix is a boolean infix. -/
lemma isPrefixOf_infixOfAux {pat l : List Char} (h : pat.isPrefixOf l = true) :
    infixOfAux pat l = true := by
  cases l with
  | nil =>
    cases pat with
    | nil => rfl
    | cons p ps => simp [List.isPrefixOf] at h
  | cons c cs => simp [infixOfAux, h]

/-- Every string contains its own `slice(0, n)`. -/
lemma containsSubstr_jsSlice_self (s : String) (n : Nat) :
    containsSubstr s (jsSlice n s) = true := by
  unfold containsSubstr jsSlice
  exact isPrefixOf_infixOfAux (take_isPrefixOf s.data n)

/-- A fact already among the known memories is flagged as a duplicate by
the 20-character-prefix containment test. -/
lemma isDuplicate_of_mem {mems : List String} {fact : String} (h : fact ∈ mems) :
    isDuplicate mems fact = true := by
  unfold isDuplicate
  rw [List.any_eq_true]
  refine ⟨fact, h, ?_⟩
  simp [containsSubstr_jsSlice_self]

/-- `take (n+1)` splits off the element at index `n`. -/
lemma take_succ_of_lt {α : Type} (l : List α) (n : Nat) (h : n < l.length) :
    l.take (n + 1) = l.take n ++ [l[n]] := by
  rw [List.take_succ, List.getElem?_eq_getElem h]
  rfl

/-- Folding the reducer over one more update appends that update. -/
lemma stateAfter_append_single (l : List (List Message)) (u : List Message) :
    stateAfter (l ++ [u]) = stateAfter l ++ u := by
  unfold stateAfter
  rw [List.foldl_append]
  rfl

/-- Cancel a shared suffix of two string concatenations. -/
lemma string_append_right_cancel {a b s : String} (h : a ++ s = b ++ s) : a = b := by
  apply String.ext
  have hd := congrArg String.data h
  rw [String.data_append, String.data_append] at hd
  exact List.append_cancel_right hd

/-- Distinct user ids yield distinct joined fact-store namespaces. -/
lemma joinNs_memories_ne {A B : String} (h : A ≠ B) :
    joinNs [A, "memories"] ≠ joinNs [B, "memories"] := by
  show (A ++ ":" ++ "memories") ≠ (B ++ ":" ++ "memories")
  intro heq
  exact h (string_append_right_cancel (string_append_right_cancel heq))

/-- Membership is invariant under descending insertion. -/
lemma mem_insertDesc {x r : Row} {l : List Row} :
    x ∈ insertDesc r l ↔ x = r ∨ x ∈ l := by
  induction l with
  | nil => simp [insertDesc]
  | cons y ys ih =>
    by_cases hc : r.createdAt ≥ y.createdAt
    · simp [insertDesc, hc]
    · simp [insertDesc, hc, ih]
      tauto

/-- Membership is invariant under the newest-first sort. -/
lemma mem_sortByCreatedDesc {x : Row} {l : List Row} :
    x ∈ sortByCreatedDesc l ↔ x ∈ l := by
  induction l with
  | nil => simp [sortByCreatedDesc]
  | cons y ys ih => simp [sortByCreatedDesc, mem_insertDesc, ih]

/- ===================== sanity examples (removed later) ===================== -/

example : isDuplicate ["User likes tea"] "User likes tea" = true := by decide
example : saveFacts [] ["User likes tea"] = ["User likes tea"] := by decide
example : containsSubstr (systemContentV1 ["User likes tea"]) "- User likes tea" = true := by decide
example : containsSubstr fixedSystemV2 "User likes tea" = false := by decide
example : Json.parse "[\"a\", 42]" = some (Json.arr [Json.str "a", Json.num "42"]) := by rfl
example : Json.parse "[1,]" = none := by rfl
example : Json.parse "01" = none := by rfl
example : Json.parse " [true, null, -1.5e3] " =
    some (Json.arr [Json.bool true, Json.null, Json.num "-1.5e3"]) := by rfl
example : Json.parse "[[1],[]]" =
    some (Json.arr [Json.arr [Json.num "1"], Json.arr []]) := by rfl
example : Json.parse "\x7b\"a\":1,\"b\":[2]\x7d" =
    some (Json.obj [("a", Json.num "1"), ("b", Json.arr [Json.num "2"])]) := by rfl
example : Json.parse "\"a\\nb\"" = some (Json.str "a\nb") := by rfl
example : Json.stringify (Json.arr [Json.str "a\"b", Json.num "2"]) = "[\"a\\\"b\",2]" := by rfl
example : matchArray "xx [1, 2] yy [3] z" = some "[1, 2] yy [3]" := by rfl
example : matchArray "no brackets" = none := by rfl
example : extractFactsFromContent "ok: [\"User likes tea\", 42]" = ["User likes tea"] := by rfl
example : extractFactsFromContent "nothing here" = [] := by rfl
example : extractFactsFromContent "bad [1, ] json" = [] := by rfl

/- ===================== claim theorems ===================== -/

/-- Claim C6: extracting and persisting the same fact text twice for one
user yields exactly one stored record — the first pass (no matching known
fact) saves it, and the second pass, whose known facts now include the
text, rejects it as a duplicate under the bidirectional
20-character-prefix containment test. -/
theorem C6_dedup_idempotent (fact : String) (known1 known2 : List String)
    (h1 : isDuplicate known1 fact = false) (h2 : fact ∈ known2) :
    saveFacts known1 [fact] = [fact] ∧ saveFacts known2 [fact] = [] := by
  constructor
  · simp [saveFacts, List.filter, h1]
  · simp [saveFacts, List.filter, isDuplicate_of_mem h2]

/-- Witness for C6 at a concrete fact: saved on the first pass, rejected
as a duplicate on the second. -/
theorem C6_dedup_idempotent_witness :
    isDuplicate [] "User drinks oolong tea" = false ∧
    "User drinks oolong tea" ∈ ["User drinks oolong tea"] ∧
    (saveFacts [] ["User drinks oolong tea"] = ["User drinks oolong tea"] ∧
      saveFacts ["User drinks oolong tea"] ["User drinks oolong tea"] = []) :=
  ⟨by decide, by decide,
    C6_dedup_idempotent "User drinks oolong tea" [] ["User drinks oolong tea"]
      (by decide) (by decide)⟩

/-- Claim C7: the persisted message sequence is append-only — with every
state update flowing through the concatenating reducer, the state after
`n` updates is a strict prefix of the state after `n + 1` updates,
provided no update is empty. -/
theorem C7_append_only (updates : List (List Message)) (n : Nat)
    (h1 : n < updates.length) (h2 : ∀ u ∈ updates, u ≠ []) :
    stateAfter (updates.take n) <+: stateAfter (updates.take (n + 1)) ∧
    stateAfter (updates.take n) ≠ stateAfter (updates.take (n + 1)) := by
  rw [take_succ_of_lt updates n h1, stateAfter_append_single]
  constructor
  · exact ⟨updates[n], rfl⟩
  · intro heq
    have hlen := congrArg List.length heq
    rw [List.length_append] at hlen
    have hz : updates[n].length = 0 := by omega
    exact h2 updates[n] (List.getElem_mem h1) (List.eq_nil_of_length_eq_zero hz)

/-- Witness for C7 on a concrete two-turn update sequence. -/
theorem C7_append_only_witness :
    0 < ([[u0], [stubFinalAnswer]] : List (List Message)).length ∧
    (∀ u ∈ ([[u0], [stubFinalAnswer]] : List (List Message)), u ≠ []) ∧
    (stateAfter ([[u0], [stubFinalAnswer]].take 0) <+:
        stateAfter ([[u0], [stubFinalAnswer]].take 1) ∧
      stateAfter ([[u0], [stubFinalAnswer]].take 0) ≠
        stateAfter ([[u0], [stubFinalAnswer]].take 1)) :=
  ⟨by decide, by decide,
    C7_append_only [[u0], [stubFinalAnswer]] 0 (by decide) (by decide)⟩

/-- Claim C9: `memoryStore.delete` removes the row whose id equals the key
regardless of the namespace argument — the delete issued with any
namespace produces the same store, with exactly the rows whose id differs
from the key. -/
theorem C9_delete_ignores_namespace (store : List Row) (ns1 ns2 : List String)
    (key : String) :
    memoryStoreDelete store ns1 key = memoryStoreDelete store ns2 key ∧
    ∀ r, r ∈ memoryStoreDelete store ns1 key ↔ r ∈ store ∧ ¬(r.id = key) := by
  constructor
  · rfl
  · intro r
    simp [memoryStoreDelete, List.mem_filter]

/-- Claim C5 counterexample: a model reply whose bracketed JSON array
contains a non-string element does not yield zero extracted facts — the
string elements are kept. -/
theorem C5_counterexample :
    extractFactsFromContent "Facts: [\"User likes tea\", 42]" = ["User likes tea"] ∧
    matchArray "Facts: [\"User likes tea\", 42]" = some "[\"User likes tea\", 42]" ∧
    Json.parse "[\"User likes tea\", 42]" =
      some (Json.arr [Json.str "User likes tea", Json.num "42"]) ∧
    Json.asString (Json.num "42") = none ∧
    (["User likes tea"] : List String) ≠ [] :=
  ⟨rfl, rfl, rfl, rfl, by simp⟩

/-- Claim C5 (amended): fact extraction is best-effort — no bracketed
substring, a parse failure, or a parsed value that is not an array all
yield zero facts; a parsed array yields exactly its string elements, with
non-string elements dropped rather than failing the turn. -/
theorem C5_extraction_best_effort (content : String) :
    (matchArray content = none → extractFactsFromContent content = []) ∧
    (∀ sub, matchArray content = some sub → Json.parse sub = none →
      extractFactsFromContent content = []) ∧
    (∀ sub j, matchArray content = some sub → Json.parse sub = some j →
      (∀ es, j ≠ Json.arr es) → extractFactsFromContent content = []) ∧
    (∀ sub es, matchArray content = some sub →
      Json.parse sub = some (Json.arr es) →
      extractFactsFromContent content = es.filterMap Json.asString) := by
  refine ⟨?_, ?_, ?_, ?_⟩
  · intro h
    simp [extractFactsFromContent, h]
  · intro sub h1 h2
    simp [extractFactsFromContent, h1, h2]
  · intro sub j h1 h2 h3
    cases j with
    | arr es => exact absurd rfl (h3 es)
    | null => simp [extractFactsFromContent, h1, h2]
    | bool b => simp [extractFactsFromContent, h1, h2]
    | num l => simp [extractFactsFromContent, h1, h2]
    | str s => simp [extractFactsFromContent, h1, h2]
    | obj ms => simp [extractFactsFromContent, h1, h2]
  · intro sub es h1 h2
    simp [extractFactsFromContent, h1, h2]

/-- Witness for C5 on a concrete reply with a mixed-type array. -/
theorem C5_extraction_best_effort_witness :
    matchArray "note [\"a\", true] end" = some "[\"a\", true]" ∧
    Json.parse "[\"a\", true]" = some (Json.arr [Json.str "a", Json.bool true]) ∧
    extractFactsFromContent "note [\"a\", true] end" =
      [Json.str "a", Json.bool true].filterMap Json.asString ∧
    [Json.str "a", Json.bool true].filterMap Json.asString = ["a"] :=
  ⟨rfl, rfl,
    (C5_extraction_best_effort "note [\"a\", true] end").2.2.2
      "[\"a\", true]" [Json.str "a", Json.bool true] rfl rfl,
    rfl⟩

/-- Claim C8: namespace isolation of the fact store — for distinct user
ids, every record returned by a search under user B's namespace comes
from a row stored under B's joined namespace, which differs from A's, so
a fact row of user A's namespace never appears in B's search results. -/
theorem C8_namespace_isolation (A B : String) (hAB : A ≠ B) (store : List Row)
    (k f : String) (hmem : (k, f) ∈ memoryStoreSearch store [B, "memories"]) :
    ∃ r, r ∈ store ∧ r.id = k ∧ r.fact = f ∧ r.ns = joinNs [B, "memories"] ∧
      r.ns ≠ joinNs [A, "memories"] := by
  unfold memoryStoreSearch at hmem
  obtain ⟨r, hr, heq⟩ := List.mem_map.mp hmem
  have hr2 : r ∈ sortByCreatedDesc
      (store.filter (fun r => r.ns == joinNs [B, "memories"])) :=
    List.mem_of_mem_take hr
  rw [mem_sortByCreatedDesc] at hr2
  obtain ⟨hstore, hpred⟩ := List.mem_filter.mp hr2
  have hns : r.ns = joinNs [B, "memories"] := by
    simpa using hpred
  have hid : r.id = k := congrArg Prod.fst heq
  have hfact : r.fact = f := congrArg Prod.snd heq
  refine ⟨r, hstore, hid, hfact, hns, ?_⟩
  rw [hns]
  exact Ne.symm (joinNs_memories_ne hAB)

/-- Witness for C8 on a concrete store holding one fact of user B. -/
theorem C8_namespace_isolation_witness :
    ("A" : String) ≠ "B" ∧
    ("m2", "likes tea") ∈ memoryStoreSearch wStoreB ["B", "memories"] ∧
    (∃ r, r ∈ wStoreB ∧
      r.id = "m2" ∧ r.fact = "likes tea" ∧ r.ns = joinNs ["B", "memories"] ∧
      r.ns ≠ joinNs ["A", "memories"]) :=
  ⟨by decide, by decide,
    C8_namespace_isolation "A" "B" (by decide) wStoreB "m2" "likes tea" (by decide)⟩

/-- Claim C10: `memoryStore.put` on an existing id updates only the fact
text — every row keeps its id, namespace and creation timestamp, so a
re-put under a different namespace leaves the row in its original
namespace; the caller-supplied `createdAt` is never read, and a fresh
insert stamps the database clock. -/
theorem C10_put_frame (store : List Row) (ns1 ns2 : List String) (key : String)
    (v w : FactValue) (now : Nat) (hfact : v.fact = w.fact) :
    memoryStorePut store ns1 key v now = memoryStorePut store ns1 key w now ∧
    (store.any (fun r => r.id == key) = true →
      (memoryStorePut store ns2 key v now).map (fun r => (r.id, r.ns, r.createdAt)) =
          store.map (fun r => (r.id, r.ns, r.createdAt)) ∧
        ∀ r ∈ memoryStorePut store ns2 key v now, r.id = key → r.fact = v.fact) ∧
    (store.any (fun r => r.id == key) = false →
      memoryStorePut store ns2 key v now =
        store ++ [{ id := key, ns := joinNs ns2, fact := v.fact, createdAt := now }]) := by
  refine ⟨?_, ?_, ?_⟩
  · simp only [memoryStorePut, hfact]
  · intro h
    constructor
    · simp only [memoryStorePut, h, if_true, List.map_map]
      apply List.map_congr_left
      intro r hr
      by_cases hid : (r.id == key) = true <;> simp [Function.comp, hid]
    · intro r hr hid
      simp only [memoryStorePut, h, if_true] at hr
      obtain ⟨x, hx, hgx⟩ := List.mem_map.mp hr
      by_cases hxk : (x.id == key) = true
      · rw [if_pos hxk] at hgx
        rw [← hgx]
      · rw [if_neg hxk] at hgx
        rw [← hgx] at hid
        exact absurd (beq_iff_eq.mpr hid) hxk
  · intro h
    simp [memoryStorePut, h]

/-- Witness for C10: re-putting id `m1` under user B's namespace rewrites
the fact text but leaves the row in `A:memories` with its original
timestamp, and two values differing only in `createdAt` produce the same
store. -/
theorem C10_put_frame_witness :
    (FactValue.mk "new fact" "2024-01-01").fact = (FactValue.mk "new fact" "1999-12-31").fact ∧
    wStore.any (fun r => r.id == "m1") = true ∧
    ((memoryStorePut wStore ["B", "memories"] "m1" ⟨"new fact", "2024-01-01"⟩ 9).map
        (fun r => (r.id, r.ns, r.createdAt)) =
      wStore.map (fun r => (r.id, r.ns, r.createdAt))) ∧
    (memoryStorePut wStore ["B", "memories"] "m1" ⟨"new fact", "2024-01-01"⟩ 9 =
      memoryStorePut wStore ["B", "memories"] "m1" ⟨"new fact", "1999-12-31"⟩ 9) :=
  ⟨rfl, by decide,
    ((C10_put_frame wStore ["B", "memories"] ["B", "memories"] "m1"
        ⟨"new fact", "2024-01-01"⟩ ⟨"new fact", "1999-12-31"⟩ 9 rfl).2.1 rfl).1,
    (C10_put_frame wStore ["B", "memories"] ["B", "memories"] "m1"
        ⟨"new fact", "2024-01-01"⟩ ⟨"new fact", "1999-12-31"⟩ 9 rfl).1⟩

/-- Claim C2 counterexample: `toolNode` does not recover tool-level
errors — an unknown tool name makes the node throw `Tool not found`
instead of appending a tool message, and a raising tool's failure
propagates; neither run produces an ok update. -/
theorem C2_counterexample :
    toolNode [echoTool] [u0, asstMissing] =
      Except.error "❌ Tool not found: get_time" ∧
    exceptIsOk (toolNode [echoTool] [u0, asstMissing]) = false ∧
    toolNode [echoTool, failTool] [u0, asstBoom] = Except.error "boom failed" ∧
    exceptIsOk (toolNode [echoTool, failTool] [u0, asstBoom]) = false :=
  ⟨rfl, rfl, rfl, rfl⟩

/-- Claim C2 (amended): a tool-level error aborts the turn instead of
being recovered locally — when the first tool call of the last message
names no registered tool, `toolNode` throws `Tool not found` for that
name, and when the resolved tool raises, the failure propagates out of
the node unchanged; no error-reporting tool message is appended. -/
theorem C2_tool_errors_propagate (tools : List Tool) (messages : List Message)
    (lastMessage : Message) (tc : ToolCall) (rest : List ToolCall)
    (hlast : messages.getLast? = some lastMessage)
    (hcalls : lastMessage.toolCalls = tc :: rest) :
    (tools.find? (fun t => t.name == tc.name) = none →
      toolNode tools messages = Except.error ("❌ Tool not found: " ++ tc.name)) ∧
    (∀ tool e, tools.find? (fun t => t.name == tc.name) = some tool →
      tool.invoke tc.args = Except.error e →
      toolNode tools messages = Except.error e) := by
  constructor
  · intro hfind
    simp [toolNode, hlast, hcalls, hfind]
  · intro tool e hfind hinv
    simp [toolNode, hlast, hcalls, hfind, hinv]

/-- Witness for C2 at a concrete state whose last assistant message calls
an unregistered tool. -/
theorem C2_tool_errors_propagate_witness :
    ([u0, asstMissing] : List Message).getLast? = some asstMissing ∧
    asstMissing.toolCalls = ⟨"c1", "get_time", "now"⟩ :: [] ∧
    ([echoTool] : List Tool).find?
      (fun t => t.name == (ToolCall.mk "c1" "get_time" "now").name) = none ∧
    toolNode [echoTool] [u0, asstMissing] =
      Except.error ("❌ Tool not found: " ++ (ToolCall.mk "c1" "get_time" "now").name) :=
  ⟨rfl, rfl, rfl,
    (C2_tool_errors_propagate [echoTool] [u0, asstMissing] asstMissing
        ⟨"c1", "get_time", "now"⟩ [] rfl rfl).1 rfl⟩

/-- Claim C3 counterexample: an assistant message carrying two tool calls
yields a single tool message — only `tool_calls[0]` is executed, so the
update's length is 1, not one message per call. -/
theorem C3_counterexample :
    asstTwoCalls.toolCalls.length = 2 ∧
    toolNode [echoTool] [u0, asstTwoCalls] =
      Except.ok [{ role := Role.tool, content := "\"one\"", toolCallId := some "c1" }] ∧
    Except.map List.length (toolNode [echoTool] [u0, asstTwoCalls]) = Except.ok 1 :=
  ⟨rfl, rfl, rfl⟩

/-- Claim C3 (amended): `toolNode` resolves and invokes only the first
tool call of the last message — on success it appends exactly one tool
message, whose `tool_call_id` matches the first call's id and whose
content is the serialized result, regardless of any further calls. -/
theorem C3_only_first_tool_call (tools : List Tool) (messages : List Message)
    (lastMessage : Message) (tc : ToolCall) (rest : List ToolCall)
    (tool : Tool) (result : Json)
    (hlast : messages.getLast? = some lastMessage)
    (hcalls : lastMessage.toolCalls = tc :: rest)
    (hfind : tools.find? (fun t => t.name == tc.name) = some tool)
    (hinv : tool.invoke tc.args = Except.ok result) :
    toolNode tools messages =
      Except.ok [{ role := Role.tool, content := Json.stringify result,
                   toolCallId := some tc.id }] := by
  simp [toolNode, hlast, hcalls, hfind, hinv]

/-- Witness for C3 at the two-call assistant message: the echo tool runs
on the first call's arguments only. -/
theorem C3_only_first_tool_call_witness :
    ([u0, asstTwoCalls] : List Message).getLast? = some asstTwoCalls ∧
    asstTwoCalls.toolCalls =
      ⟨"c1", "echo", "one"⟩ :: [⟨"c2", "echo", "two"⟩] ∧
    ([echoTool] : List Tool).find?
      (fun t => t.name == (ToolCall.mk "c1" "echo" "one").name) = some echoTool ∧
    echoTool.invoke "one" = Except.ok (Json.str "one") ∧
    toolNode [echoTool] [u0, asstTwoCalls] =
      Except.ok [{ role := Role.tool, content := Json.stringify (Json.str "one"),
                   toolCallId := some "c1" }] :=
  ⟨rfl, rfl, rfl, rfl,
    C3_only_first_tool_call [echoTool] [u0, asstTwoCalls] asstTwoCalls
      ⟨"c1", "echo", "one"⟩ [⟨"c2", "echo", "two"⟩] echoTool (Json.str "one")
      rfl rfl rfl rfl⟩

/-- Claim C1: evaluation of the compiled workflow at the claim's scenario.
The graph wires only `addEdge(START, "agent")` and `addEdge("agent",
END)`: with a model stub that returns one tool call on invocation 1 and a
tool-free answer on invocation 2, the run still ends after one model
invocation, the persisted sequence is just the user message followed by
the assistant message that carries the pending tool call, no tool message
is ever appended, and the edge after `agent` is END even though the last
message has a non-empty `tool_calls` list. -/
theorem C1_graph_never_reaches_tools :
    invokeGraph stubModel [] [stubUser] = (1, [stubUser, stubAsstToolCall]) ∧
    stubAsstToolCall.toolCalls ≠ [] ∧
    nextNode GNode.agent = GNode.finish ∧
    (∀ m ∈ (invokeGraph stubModel [] [stubUser]).2, m.role ≠ Role.tool) ∧
    (invokeGraph stubModel [] [stubUser]).2.length = 2 := by
  refine ⟨rfl, by decide, rfl, ?_, rfl⟩
  decide

/-- Claim C4: evaluation of the system-prompt construction at a user with
one stored fact. The plain-variant prompt injects the fact as a verbatim
bullet (and omits the remember section when no facts exist), but the
tool-enabled variant computes its memory-bearing `systemContent` and then
invokes the model with `baseMessages`, whose fixed system message — and
every other message — does not contain the fact. -/
theorem C4_memory_prompt_not_passed :
    containsSubstr (systemContentV1 []) "Things you remember" = false ∧
    containsSubstr (systemContentV1 ["User likes tea"]) "- User likes tea" = true ∧
    promptMessagesV1 ["User likes tea"] [wUser] =
      { role := Role.system, content := systemContentV1 ["User likes tea"] } :: [wUser] ∧
    containsSubstr (systemContentV2 ["User likes tea"]) "- User likes tea" = true ∧
    baseMessagesV2 [wUser] = [{ role := Role.system, content := fixedSystemV2 }, wUser] ∧
    (∀ m ∈ baseMessagesV2 [wUser], containsSubstr m.content "User likes tea" = false) := by
  refine ⟨by decide, by decide, rfl, by decide, rfl, by decide⟩
